import Mathlib

/-!
Verification of the FFI boundary module `src/ffi.rs` of `codex-storage-proofs`
against its natural-language specification.

Shallow embedding conventions:
* A `u8` byte is `Fin 256`.
* A `Buffer { data, len }` argument is modelled by the byte sequence it points
  to; a nullable `*const Buffer` (or `*const i32`) argument is an
  `Option` of that sequence, with `none` standing for a null pointer.
* A `U256` is a `Nat` (known `< 2 ^ 256` when produced by a decode).
* Rust panics (every `.unwrap()`; in an `extern "C"` function a panic aborts
  the process) and null-pointer dereferences (`slice::from_raw_parts` on null,
  undefined behaviour) are explicit outcomes of an `FfiOutcome` type.
* Heap ownership is modelled by an allocation-state: a counter of allocation
  ids plus the list of currently live ids.  `Vec` buffers captured by raw
  pointers and `Box::into_raw` boxes are allocations; a raw data pointer is
  the id of the allocation it points into.
* `StorageProofs` (file `src/storage_proofs.rs`) is not part of the given
  sources; where a claim depends on it, it is modelled from the spec and the
  model is marked `Modelled from the spec:` in its doc comment.
-/

namespace CodexFfi

/-- A `u8` byte. -/
abbrev Byte := Fin 256

/-- `U256::BYTES` : the wire width of a field element. -/
def U256_BYTES : Nat := 32

/-- Little-endian value of a byte sequence (the integer a `&[u8]` slice
denotes to `U256::try_from_le_slice`). -/
def leVal : List Byte → Nat
  | [] => 0
  | b :: bs => b.val + 256 * leVal bs

/-- `U256::try_from_le_slice`: decodes a little-endian byte slice, `None`
when the value does not fit in 256 bits (only possible for slices longer
than 32 bytes with significant high bytes). -/
def tryFromLeSlice (bs : List Byte) : Option Nat :=
  if leVal bs < 2 ^ 256 then some (leVal bs) else none

/-- Helper for `toLeBytes`: the `n` low little-endian bytes of `x`. -/
def toLeBytesN : Nat → Nat → List Byte
  | 0, _ => []
  | n + 1, x => (⟨x % 256, Nat.mod_lt x (by norm_num)⟩ : Byte) :: toLeBytesN n (x / 256)

/-- `U256::to_le_bytes` / `to_le_bytes_vec`: the 32-byte little-endian
encoding of a field element. -/
def toLeBytes (x : Nat) : List Byte := toLeBytesN 32 x

/-- Fuel-driven helper for `listChunks`; fuel `≥ l.length` suffices whenever
`n ≥ 1`. -/
def chunksAux (n : Nat) : Nat → List α → List (List α)
  | 0, _ => []
  | _ + 1, [] => []
  | fuel + 1, a :: l => ((a :: l).take n) :: chunksAux n fuel ((a :: l).drop n)

/-- Rust `slice::chunks(n)`: successive windows of `n` elements, the last one
possibly shorter; an empty slice yields no windows. -/
def listChunks (n : Nat) (l : List α) : List (List α) := chunksAux n l.length l

/-- `.map(|c| f(c).unwrap())`: maps a fallible decode over a list, `none`
(a panic in the source) as soon as one element fails. -/
def mapUnwrap (f : α → Option β) : List α → Option (List β)
  | [] => some []
  | a :: l =>
    match f a with
    | none => none
    | some b =>
      match mapUnwrap f l with
      | none => none
      | some bs => some (b :: bs)

/-- Outcome of calling an `extern "C"` entry point: a returned value, a panic
(which aborts the process), or undefined behaviour from dereferencing an
absent pointer. -/
inductive FfiOutcome (α : Type) where
  | ok : α → FfiOutcome α
  | panic : FfiOutcome α
  | ub : FfiOutcome α
deriving DecidableEq

/-- Sequencing of FFI steps: a panic or UB in an earlier step ends the call. -/
def FfiOutcome.bind : FfiOutcome α → (α → FfiOutcome β) → FfiOutcome β
  | .ok a, f => f a
  | .panic, _ => .panic
  | .ub, _ => .ub

/-- Dereference of a nullable pointer (`slice::from_raw_parts((*p).data, ..)`):
undefined behaviour when the pointer is null. -/
def derefBuf : Option α → FfiOutcome α
  | none => .ub
  | some x => .ok x

/-- `Option::unwrap()`: panics on `None`. -/
def unwrapOr : Option α → FfiOutcome α
  | none => .panic
  | some x => .ok x

/-- The data `fn prove` has decoded from its raw positional buffers just
before calling `StorageProofs::prove` (ffi.rs lines 82-122).  The decoded
`_pubkey` is bound and dropped by the source, hence not a field here. -/
structure DecodedArgs where
  chunks : List Nat
  siblings : List Nat
  hashes : List Nat
  path : List Int
  root : Nat
  salt : Nat
deriving DecidableEq

/-- The argument-decoding prefix of `fn prove` (ffi.rs lines 82-122), step by
step in source order: chunk/sibling/hash buffers are dereferenced and split
into 32-byte windows each decoded with `try_from_le_slice(..).unwrap()`; the
path pointer is dereferenced and copied; the pubkey, root and salt buffers
are dereferenced and decoded whole with `try_from_le_slice(..).unwrap()`,
the pubkey binding (`_pubkey`) being discarded. -/
def decodePositional (chunks siblings hashes : Option (List Byte))
    (path : Option (List Int)) (pubkey root salt : Option (List Byte)) :
    FfiOutcome DecodedArgs :=
  (derefBuf chunks).bind fun cbuf =>
  (unwrapOr (mapUnwrap tryFromLeSlice (listChunks U256_BYTES cbuf))).bind fun cs =>
  (derefBuf siblings).bind fun sbuf =>
  (unwrapOr (mapUnwrap tryFromLeSlice (listChunks U256_BYTES sbuf))).bind fun ss =>
  (derefBuf hashes).bind fun hbuf =>
  (unwrapOr (mapUnwrap tryFromLeSlice (listChunks U256_BYTES hbuf))).bind fun hs =>
  (derefBuf path).bind fun pth =>
  (derefBuf pubkey).bind fun pkbuf =>
  (unwrapOr (tryFromLeSlice pkbuf)).bind fun _pubkey =>
  (derefBuf root).bind fun rbuf =>
  (unwrapOr (tryFromLeSlice rbuf)).bind fun r =>
  (derefBuf salt).bind fun stbuf =>
  (unwrapOr (tryFromLeSlice stbuf)).bind fun st =>
  .ok ⟨cs, ss, hs, pth, r, st⟩

/-- The error taxonomy of the positional prove path (spec §7). -/
inductive ProveError where
  | invalidArgument
  | circuitError
  | proofError
deriving DecidableEq

/-- The count-agreement structural invariant of a decoded request (spec §3,
§4.2): the leaf-hash count equals the path-index count, and the chunk
element count is exactly 256 field elements per leaf. -/
def countsAgree (a : DecodedArgs) : Bool :=
  a.hashes.length == a.path.length && a.chunks.length == 256 * a.hashes.length

/-- Modelled from the spec: `StorageProofs::prove` (file
`src/storage_proofs.rs`, not among the given sources) is the Proof Lifecycle
Orchestrator of §4.4: step 1 validates the request's structural invariants
(here the count-agreement invariant the claims reference), failing with
`InvalidArgument` on violation, and only then delegates to the Proving
Backend, itself opaque (§1) and passed here as a function that may fail with
`CircuitError` or `ProofError` and otherwise yields the proof bytes and the
public-input bytes. -/
def storageProofsProve
    (backend : DecodedArgs → Except ProveError (List Byte × List Byte))
    (args : DecodedArgs) : Except ProveError (List Byte × List Byte) :=
  if countsAgree args then backend args else .error .invalidArgument

/-- Heap-allocation state: a fresh-id counter and the list of live
allocation ids. -/
structure AllocState where
  nextId : Nat
  live : List Nat
deriving DecidableEq

/-- A new heap allocation (a `Vec` buffer or a `Box`): returns its id. -/
def alloc (s : AllocState) : Nat × AllocState :=
  (s.nextId, ⟨s.nextId + 1, s.nextId :: s.live⟩)

/-- Freeing an allocation (a `Vec` or `Box` being dropped). -/
def dealloc (s : AllocState) (i : Nat) : AllocState :=
  ⟨s.nextId, s.live.filter (fun j => j != i)⟩

/-- `Buffer { data, len }` as stored inside a returned `ProofCtx`: `data` is
the id of the heap allocation the raw pointer points into. -/
structure Buffer where
  data : Nat
  len : Nat
deriving DecidableEq

/-- `ProofCtx { proof, public_inputs }` (ffi.rs lines 13-18). -/
structure ProofCtx where
  proof : Buffer
  public_inputs : Buffer
deriving DecidableEq

/-- `ProofCtx::new(proof: &[u8], public_inputs: &[u8])` (ffi.rs lines 20-33):
captures each slice's raw data pointer (here: the id of the allocation
backing the slice) and length. -/
def ProofCtx.new (proofAlloc proofLen piAlloc piLen : Nat) : ProofCtx :=
  ⟨⟨proofAlloc, proofLen⟩, ⟨piAlloc, piLen⟩⟩

/-- The tail of `fn prove` / `fn prove_mpack_ext` after the backend call
succeeded (ffi.rs lines 124-141): the two local `Vec`s
(`let proof_bytes = &mut Vec::new();` etc.) hold the produced bytes in heap
buffers `a` and `b`; `ProofCtx::new` captures their raw pointers;
`Box::into_raw(Box::new(..))` leaks the context as allocation `c`; then the
function returns and the two local `Vec`s are dropped, freeing `b` and `a`.
Returns `((context value, context box id), final allocation state)`. -/
def proveTail (proofBytes publicInputsBytes : List Byte) (s : AllocState) :
    (ProofCtx × Nat) × AllocState :=
  let r1 := alloc s
  let a := r1.1
  let r2 := alloc r1.2
  let b := r2.1
  let ctx := ProofCtx.new a proofBytes.length b publicInputsBytes.length
  let r3 := alloc r2.2
  let c := r3.1
  let s4 := dealloc (dealloc r3.2 b) a
  ((ctx, c), s4)

/-- `fn prove` (ffi.rs lines 71-142): decode the positional buffers, call
`StorageProofs::prove` and `.unwrap()` its result (a panic on `Err`), then
build and leak the `ProofCtx`.  The `StorageProofs` handle is assumed valid
and is represented by its backend behaviour. -/
def prove
    (backend : DecodedArgs → Except ProveError (List Byte × List Byte))
    (chunks siblings hashes : Option (List Byte))
    (path : Option (List Int)) (pubkey root salt : Option (List Byte))
    (s : AllocState) : FfiOutcome ((ProofCtx × Nat) × AllocState) :=
  match decodePositional chunks siblings hashes path pubkey root salt with
  | .ub => .ub
  | .panic => .panic
  | .ok args =>
    match storageProofsProve backend args with
    | .error _ => .panic
    | .ok pr => .ok (proveTail pr.1 pr.2 s)

/-- The error taxonomy of the structured (Format B) prove path (spec §7). -/
inductive MpackError where
  | schemaMismatch
  | missingField
  | circuitError
  | proofError
deriving DecidableEq

/-- `fn prove_mpack_ext` (ffi.rs lines 148-167): dereference the single
args buffer, call `StorageProofs::prove_mpack` and `.unwrap()` its result,
then build and leak the `ProofCtx`.  `StorageProofs::prove_mpack` is not
among the given sources; modelled from the spec (§4.2 Format B, §4.4) as an
opaque fallible call passed as a function. -/
def prove_mpack_ext
    (proveMpack : List Byte → Except MpackError (List Byte × List Byte))
    (args : Option (List Byte)) (s : AllocState) :
    FfiOutcome ((ProofCtx × Nat) × AllocState) :=
  match args with
  | none => .ub
  | some inputs =>
    match proveMpack inputs with
    | .error _ => .panic
    | .ok pr => .ok (proveTail pr.1 pr.2 s)

/-- Is `b` a UTF-8 continuation byte (`0x80..=0xBF`)? -/
def isCont (b : Byte) : Bool := 0x80 ≤ b.val && b.val ≤ 0xBF

/-- `str::from_utf8` validity (Rust core's `run_utf8_validation`): ASCII
bytes stand alone; `0xC2..=0xDF` start a 2-byte sequence; `0xE0..=0xEF` a
3-byte sequence (second byte restricted for `0xE0`/`0xED` to exclude
overlong forms and surrogates); `0xF0..=0xF4` a 4-byte sequence (second
byte restricted for `0xF0`/`0xF4`); everything else is invalid. -/
def validUtf8 : List Byte → Bool
  | [] => true
  | b :: rest =>
    if b.val ≤ 0x7F then validUtf8 rest
    else if 0xC2 ≤ b.val && b.val ≤ 0xDF then
      match rest with
      | [] => false
      | b1 :: rest2 => isCont b1 && validUtf8 rest2
    else if 0xE0 ≤ b.val && b.val ≤ 0xEF then
      match rest with
      | b1 :: b2 :: rest3 =>
        (if b.val = 0xE0 then 0xA0 ≤ b1.val && b1.val ≤ 0xBF
         else if b.val = 0xED then 0x80 ≤ b1.val && b1.val ≤ 0x9F
         else isCont b1) && isCont b2 && validUtf8 rest3
      | _ => false
    else if 0xF0 ≤ b.val && b.val ≤ 0xF4 then
      match rest with
      | b1 :: b2 :: b3 :: rest4 =>
        (if b.val = 0xF0 then 0x90 ≤ b1.val && b1.val ≤ 0xBF
         else if b.val = 0xF4 then 0x80 ≤ b1.val && b1.val ≤ 0x8F
         else isCont b1) && isCont b2 && isCont b3 && validUtf8 rest4
      | _ => false
    else false

/-- The `StorageProofs` value built by handle creation.  Modelled from the
spec: `StorageProofs::new` (file `src/storage_proofs.rs`, not among the
given sources) stores the two mandatory artifact references and the
optional proving-key reference (§4.3); the decoded strings are kept as
their UTF-8 bytes. -/
structure StorageProofs where
  wasm : List Byte
  r1cs : List Byte
  zkey : Option (List Byte)
deriving DecidableEq

/-- `StorageProofs::new(wasm, r1cs, zkey)`. -/
def StorageProofs.new (wasm r1cs : List Byte) (zkey : Option (List Byte)) :
    StorageProofs :=
  ⟨wasm, r1cs, zkey⟩

/-- `fn init_proof_ctx` (ffi.rs lines 39-65): decodes the `r1cs` then the
`wasm` buffer with `str::from_utf8(slice).unwrap()` (a panic on non-UTF-8
bytes), decodes the optional `zkey` buffer likewise when its pointer is
non-null, and boxes a new `StorageProofs`.  The `r1cs` and `wasm` buffers
are passed by value, so only their byte contents appear here; `zkey` is a
nullable pointer. -/
def init_proof_ctx (r1cs wasm : List Byte) (zkey : Option (List Byte)) :
    FfiOutcome StorageProofs :=
  (unwrapOr (if validUtf8 r1cs then some r1cs else none)).bind fun r =>
  (unwrapOr (if validUtf8 wasm then some wasm else none)).bind fun w =>
  (match zkey with
   | some z => (unwrapOr (if validUtf8 z then some z else none)).bind fun zz =>
       .ok (some zz)
   | none => (.ok none : FfiOutcome (Option (List Byte)))).bind fun zk =>
  .ok (StorageProofs.new w r zk)

/-- The verification error of spec §7 (`VerifyError`). -/
inductive VerifyError where
  | verifyError
deriving DecidableEq

/-- `Result::is_ok()`. -/
def isOkE : Except ε α → Bool
  | .ok _ => true
  | .error _ => false

/-- `fn verify` (ffi.rs lines 173-182): dereferences the proof and
public-input buffers, then returns `prover.verify(proof, public_inputs).is_ok()`.
Modelled from the spec: `StorageProofs::verify` (file
`src/storage_proofs.rs`, not among the given sources) delegates to the
Proving Backend's verification routine (§4.4) and reports failure — also on
malformed or truncated bytes — as an error value; it is passed here as a
total function into `Except`. -/
def verify (backendVerify : List Byte → List Byte → Except VerifyError Unit)
    (proof public_inputs : Option (List Byte)) : FfiOutcome Bool :=
  match proof with
  | none => .ub
  | some p =>
    match public_inputs with
    | none => .ub
    | some q => .ok (isOkE (backendVerify p q))

/-- `fn free_prover` (ffi.rs lines 188-194): returns immediately on a null
pointer, otherwise drops the box (freeing its allocation). -/
def free_prover (prover : Option Nat) (s : AllocState) : AllocState :=
  match prover with
  | none => s
  | some p => dealloc s p

/-- `fn free_proof_ctx` (ffi.rs lines 200-206): returns immediately on a
null pointer, otherwise drops the box (freeing its allocation). -/
def free_proof_ctx (ctx : Option Nat) (s : AllocState) : AllocState :=
  match ctx with
  | none => s
  | some c => dealloc s c

/-! ## Helper lemmas -/

theorem leVal_lt_pow (bs : List Byte) : leVal bs < 256 ^ bs.length := by
  induction bs with
  | nil => simp [leVal]
  | cons b t ih =>
    simp only [leVal, List.length_cons, pow_succ]
    have hb : b.val < 256 := b.isLt
    calc b.val + 256 * leVal t < 256 + 256 * leVal t := by omega
      _ = 256 * (1 + leVal t) := by ring
      _ ≤ 256 * 256 ^ t.length := Nat.mul_le_mul_left 256 (by omega)
      _ = 256 ^ t.length * 256 := by ring

theorem pow256_32 : (256 : Nat) ^ 32 = 2 ^ 256 := by
  have h : (256 : Nat) ^ 32 = (2 ^ 8) ^ 32 := by norm_num
  rw [h, ← pow_mul]

theorem tryFromLeSlice_short (bs : List Byte) (h : bs.length ≤ 32) :
    tryFromLeSlice bs = some (leVal bs) := by
  have h1 : leVal bs < 256 ^ bs.length := leVal_lt_pow bs
  have h2 : (256 : Nat) ^ bs.length ≤ 256 ^ 32 := Nat.pow_le_pow_right (by norm_num) h
  have h3 := pow256_32
  unfold tryFromLeSlice
  rw [if_pos (by omega)]

theorem chunksAux_short (n fuel : Nat) (l : List α) :
    ∀ c ∈ chunksAux n fuel l, c.length ≤ n := by
  induction fuel generalizing l with
  | zero => simp [chunksAux]
  | succ fuel ih =>
    cases l with
    | nil => simp [chunksAux]
    | cons a t =>
      intro c hc
      simp only [chunksAux, List.mem_cons] at hc
      rcases hc with h | h
      · subst h; exact List.length_take_le n (a :: t)
      · exact ih _ c h

theorem chunksAux_length (fuel : Nat) (l : List α) (h : l.length ≤ fuel) :
    (chunksAux 32 fuel l).length = (l.length + 31) / 32 := by
  induction fuel generalizing l with
  | zero =>
    have hl : l = [] := List.eq_nil_of_length_eq_zero (by omega)
    subst hl; simp [chunksAux]
  | succ fuel ih =>
    cases l with
    | nil => simp [chunksAux]
    | cons a t =>
      have ht : t.length ≤ fuel := by simpa using h
      simp only [chunksAux, List.length_cons]
      rw [ih ((a :: t).drop 32)
        (by simp only [List.length_drop, List.length_cons]; omega)]
      simp only [List.length_drop, List.length_cons]
      omega

theorem mapUnwrap_eq_map (f : α → Option β) (g : α → β) (l : List α)
    (h : ∀ a ∈ l, f a = some (g a)) : mapUnwrap f l = some (l.map g) := by
  induction l with
  | nil => simp [mapUnwrap]
  | cons a t ih =>
    simp only [mapUnwrap]
    rw [h a (by simp), ih (fun x hx => h x (by simp [hx]))]
    simp

theorem decodeVec_eq (bs : List Byte) :
    mapUnwrap tryFromLeSlice (listChunks U256_BYTES bs) =
      some ((listChunks U256_BYTES bs).map leVal) := by
  apply mapUnwrap_eq_map
  intro c hc
  exact tryFromLeSlice_short c (chunksAux_short 32 bs.length bs c hc)

theorem decodeVec_length (bs : List Byte) :
    ((listChunks U256_BYTES bs).map leVal).length = (bs.length + 31) / 32 := by
  rw [List.length_map]
  exact chunksAux_length bs.length bs le_rfl

theorem leVal_toLeBytesN (n x : Nat) : leVal (toLeBytesN n x) = x % 256 ^ n := by
  induction n generalizing x with
  | zero => simp [toLeBytesN, leVal, Nat.mod_one]
  | succ n ih =>
    simp only [toLeBytesN, leVal]
    rw [ih, pow_succ', Nat.mod_mul]

theorem toLeBytesN_length (n x : Nat) : (toLeBytesN n x).length = n := by
  induction n generalizing x with
  | zero => simp [toLeBytesN]
  | succ n ih => simp [toLeBytesN, ih]

/-! ## Claim theorems -/

/-- C8: for every representable FieldElement `x` (a 256-bit unsigned
integer), encoding `x` to its 32-byte little-endian form and decoding that
form with `try_from_le_slice` yields `x` again: `decode(encode(x)) == x`. -/
theorem decode_encode_roundtrip (x : Nat) (h : x < 2 ^ 256) :
    (toLeBytes x).length = 32 ∧ tryFromLeSlice (toLeBytes x) = some x := by
  have h1 : leVal (toLeBytes x) = x := by
    rw [toLeBytes, leVal_toLeBytesN, pow256_32, Nat.mod_eq_of_lt h]
  refine ⟨toLeBytesN_length 32 x, ?_⟩
  rw [tryFromLeSlice, h1, if_pos h]

/-- Witness for C8 at `x = 3`. -/
theorem decode_encode_roundtrip_witness :
    (toLeBytes 3).length = 32 ∧ tryFromLeSlice (toLeBytes 3) = some 3 :=
  decode_encode_roundtrip 3 (by norm_num)

/-- C10: calling `free_prover` or `free_proof_ctx` with a null pointer is a
safe no-op: the function returns with the allocation state unchanged, so
nothing is deallocated. -/
theorem free_null_noop (s : AllocState) :
    free_prover none s = s ∧ free_proof_ctx none s = s :=
  ⟨rfl, rfl⟩

/-- C4: `verify` delegates to the backend verification routine and returns
its boolean result (`is_ok`) directly; for arbitrary — in particular
malformed or truncated — proof and public-input bytes the outcome is that
boolean, `false` whenever the backend reports an error, and the call never
panics and never hits undefined behaviour. -/
theorem verify_delegates_bool
    (bv : List Byte → List Byte → Except VerifyError Unit) (p q : List Byte) :
    verify bv (some p) (some q) = .ok (isOkE (bv p q)) ∧
    (∀ e, bv p q = .error e → verify bv (some p) (some q) = .ok false) ∧
    verify bv (some p) (some q) ≠ .panic ∧ verify bv (some p) (some q) ≠ .ub := by
  refine ⟨rfl, ?_, by simp [verify], by simp [verify]⟩
  intro e he
  simp [verify, he, isOkE]

/-- Witness for C4: a backend rejecting its (malformed) input makes `verify`
return `false`. -/
theorem verify_delegates_bool_witness :
    verify (fun _ _ => Except.error VerifyError.verifyError) (some [(7 : Byte)]) (some [])
      = .ok false :=
  (verify_delegates_bool (fun _ _ => Except.error VerifyError.verifyError)
    [(7 : Byte)] []).2.1 VerifyError.verifyError rfl

/-- C3 counterexample: handle creation on a non-UTF-8 `wasm` buffer (the
lone lead byte `0xC0`) panics — aborting the process — instead of failing
with an `InvalidArgument` error. -/
theorem init_non_utf8_cex :
    init_proof_ctx [] [(0xC0 : Byte)] none = FfiOutcome.panic := rfl

/-- C3 as amended: if either the circuit-spec (`r1cs`) or witness-program
(`wasm`) buffer is not valid UTF-8 text, `init_proof_ctx` panics on the
`str::from_utf8(..).unwrap()` — terminating the process — rather than
returning an `InvalidArgument` error. -/
theorem init_panics_on_non_utf8 (r1cs wasm : List Byte) (zkey : Option (List Byte))
    (h : validUtf8 r1cs = false ∨ validUtf8 wasm = false) :
    init_proof_ctx r1cs wasm zkey = .panic := by
  rcases h with h | h
  · simp [init_proof_ctx, h, unwrapOr, FfiOutcome.bind]
  · cases hr : validUtf8 r1cs
    · simp [init_proof_ctx, hr, unwrapOr, FfiOutcome.bind]
    · simp [init_proof_ctx, hr, h, unwrapOr, FfiOutcome.bind]

/-- Witness for the amended C3: a lone continuation byte `0x80` as the
`r1cs` reference. -/
theorem init_panics_on_non_utf8_witness :
    init_proof_ctx [(128 : Byte)] [] none = .panic :=
  init_panics_on_non_utf8 [(128 : Byte)] [] none (Or.inl rfl)

/-- C5 counterexample: a 1-byte chunk buffer (length not a multiple of 32)
together with one 32-byte sibling against two leaf hashes (sibling count 1
not divisible by leaf count 2) decodes successfully — no `InvalidArgument`
is produced. -/
theorem decode_ragged_accepted_cex :
    decodePositional (some [(1 : Byte)]) (some (toLeBytes 7))
      (some (toLeBytes 5 ++ toLeBytes 6)) (some []) (some []) (some []) (some [])
      = FfiOutcome.ok ⟨[1], [7], [5, 6], [], 0, 0⟩ := rfl

/-- C5 as amended: positional decoding performs no length validation at
all: every chunk, sibling and leaf-hash buffer decodes successfully into
`⌈len / 32⌉` field elements, a ragged final window being decoded from fewer
than 32 bytes, and sibling-count divisibility by the leaf count is never
checked; no `InvalidArgument` arises from the decode. -/
theorem decode_accepts_any_length (cb sb hb : List Byte) (pth : List Int) :
    decodePositional (some cb) (some sb) (some hb) (some pth) (some []) (some []) (some [])
      = .ok ⟨(listChunks U256_BYTES cb).map leVal, (listChunks U256_BYTES sb).map leVal,
             (listChunks U256_BYTES hb).map leVal, pth, 0, 0⟩ ∧
    ((listChunks U256_BYTES cb).map leVal).length = (cb.length + 31) / 32 ∧
    ((listChunks U256_BYTES sb).map leVal).length = (sb.length + 31) / 32 ∧
    ((listChunks U256_BYTES hb).map leVal).length = (hb.length + 31) / 32 := by
  refine ⟨?_, decodeVec_length cb, decodeVec_length sb, decodeVec_length hb⟩
  have h0 : tryFromLeSlice ([] : List Byte) = some 0 := rfl
  simp only [decodePositional, derefBuf, FfiOutcome.bind, decodeVec_eq, unwrapOr, h0]

/-- C6 counterexample: a null `chunks` pointer leads straight to the
dereference (undefined behaviour), not to an `InvalidArgument` failure. -/
theorem null_chunks_ub_cex :
    decodePositional none (some []) (some []) (some []) (some []) (some []) (some [])
      = FfiOutcome.ub := rfl

/-- C6 as amended: the positional prove entry point performs no null check
on any of its seven required pointers; an absent pointer is dereferenced
unconditionally, which is undefined behaviour, and no `InvalidArgument` is
ever produced.  (The side conditions keep the pubkey/root decodes — which
precede the later dereferences in source order — from panicking first; any
real 32-byte buffer satisfies them.) -/
theorem absent_pointer_is_ub
    (chunks siblings hashes : Option (List Byte)) (path : Option (List Int))
    (pubkey root salt : Option (List Byte))
    (habsent : chunks = none ∨ siblings = none ∨ hashes = none ∨ path = none ∨
      pubkey = none ∨ root = none ∨ salt = none)
    (hpk : ∀ bs, pubkey = some bs → bs.length ≤ 32)
    (hrt : ∀ bs, root = some bs → bs.length ≤ 32) :
    decodePositional chunks siblings hashes path pubkey root salt = .ub := by
  cases chunks with
  | none => simp [decodePositional, derefBuf, FfiOutcome.bind]
  | some cb =>
    cases siblings with
    | none => simp [decodePositional, derefBuf, FfiOutcome.bind, decodeVec_eq, unwrapOr]
    | some sb =>
      cases hashes with
      | none => simp [decodePositional, derefBuf, FfiOutcome.bind, decodeVec_eq, unwrapOr]
      | some hb =>
        cases path with
        | none => simp [decodePositional, derefBuf, FfiOutcome.bind, decodeVec_eq, unwrapOr]
        | some pth =>
          cases pubkey with
          | none => simp [decodePositional, derefBuf, FfiOutcome.bind, decodeVec_eq, unwrapOr]
          | some pkb =>
            have hpk2 := tryFromLeSlice_short pkb (hpk pkb rfl)
            cases root with
            | none =>
              simp [decodePositional, derefBuf, FfiOutcome.bind, decodeVec_eq, unwrapOr, hpk2]
            | some rb =>
              have hrt2 := tryFromLeSlice_short rb (hrt rb rfl)
              cases salt with
              | none =>
                simp [decodePositional, derefBuf, FfiOutcome.bind, decodeVec_eq, unwrapOr,
                  hpk2, hrt2]
              | some stb => simp at habsent

/-- Witness for the amended C6: null siblings pointer, everything else
present. -/
theorem absent_pointer_is_ub_witness :
    decodePositional (some []) none (some []) (some []) (some []) (some []) (some [])
      = .ub :=
  absent_pointer_is_ub (some []) none (some []) (some []) (some []) (some []) (some [])
    (Or.inr (Or.inl rfl))
    (fun bs h => by injection h with h1; subst h1; decide)
    (fun bs h => by injection h with h1; subst h1; decide)

/-- C1 (code bug): whenever `prove` returns a result context, the heap
allocations behind the context's proof and public-input data pointers have
already been freed — the backing `Vec`s are function-local and are dropped
when `prove` returns — so the byte sequences reachable through the returned
(pointer, length) pairs are dangling instead of being owned by the caller
until release; only the boxed context itself is still live. -/
theorem prove_returns_dangling_buffers
    (backend : DecodedArgs → Except ProveError (List Byte × List Byte))
    (chunks siblings hashes : Option (List Byte)) (path : Option (List Int))
    (pubkey root salt : Option (List Byte)) (s : AllocState)
    (ctx : ProofCtx) (boxId : Nat) (s2 : AllocState)
    (h : prove backend chunks siblings hashes path pubkey root salt s
      = .ok ((ctx, boxId), s2)) :
    ¬ ctx.proof.data ∈ s2.live ∧ ¬ ctx.public_inputs.data ∈ s2.live ∧
      boxId ∈ s2.live := by
  unfold prove at h
  cases hdec : decodePositional chunks siblings hashes path pubkey root salt with
  | panic => simp only [hdec] at h; exact FfiOutcome.noConfusion h
  | ub => simp only [hdec] at h; exact FfiOutcome.noConfusion h
  | ok args =>
    simp only [hdec] at h
    cases hsp : storageProofsProve backend args with
    | error e => simp only [hsp] at h; exact FfiOutcome.noConfusion h
    | ok pr =>
      simp only [hsp] at h
      simp only [proveTail, alloc, dealloc, ProofCtx.new, FfiOutcome.ok.injEq,
        Prod.mk.injEq] at h
      obtain ⟨⟨hctx, hbox⟩, hs2⟩ := h
      subst hctx
      subst hbox
      subst hs2
      refine ⟨?_, ?_, ?_⟩
      · simp [List.mem_filter]
      · simp [List.mem_filter]
      · simp [List.mem_filter, List.mem_cons, bne_iff_ne]
        omega

/-- Witness for C1: a trivially succeeding prove call from allocation state
`⟨0, []⟩` hands back a context whose two data pointers (allocations 0 and 1)
are already freed; only the context box (allocation 2) is live. -/
theorem prove_returns_dangling_buffers_witness :
    ¬ (ProofCtx.new 0 1 1 1).proof.data ∈ (AllocState.mk 3 [2]).live ∧
    ¬ (ProofCtx.new 0 1 1 1).public_inputs.data ∈ (AllocState.mk 3 [2]).live ∧
    (2 : Nat) ∈ (AllocState.mk 3 [2]).live :=
  prove_returns_dangling_buffers (fun _ => Except.ok ([(1 : Byte)], [(2 : Byte)]))
    (some []) (some []) (some []) (some []) (some []) (some []) (some [])
    ⟨0, []⟩ (ProofCtx.new 0 1 1 1) 2 ⟨3, [2]⟩ rfl

/-- C2 counterexample: a backend failure (here a witness-evaluation
failure, `CircuitError`) in a positional prove call makes the entry point
panic — terminating the process — instead of returning an error result. -/
theorem prove_error_not_surfaced_cex :
    prove (fun _ => Except.error ProveError.circuitError)
      (some []) (some []) (some []) (some []) (some []) (some []) (some []) ⟨0, []⟩
      = FfiOutcome.panic := rfl

/-- C2 as amended: when the orchestrated prove call fails — for any error,
in particular `CircuitError` or `ProofError` — both prove entry points
`.unwrap()` the error and panic, terminating the process, rather than
surfacing the failure as an explicit error result. -/
theorem prove_panics_on_backend_error
    (backend : DecodedArgs → Except ProveError (List Byte × List Byte))
    (mback : List Byte → Except MpackError (List Byte × List Byte))
    (chunks siblings hashes : Option (List Byte)) (path : Option (List Int))
    (pubkey root salt : Option (List Byte)) (args : DecodedArgs)
    (inputs : List Byte) (s : AllocState) (e : ProveError) (e2 : MpackError) :
    (decodePositional chunks siblings hashes path pubkey root salt = .ok args →
      storageProofsProve backend args = .error e →
      prove backend chunks siblings hashes path pubkey root salt s = .panic) ∧
    (mback inputs = .error e2 → prove_mpack_ext mback (some inputs) s = .panic) := by
  constructor
  · intro hdec hsp
    simp only [prove, hdec, hsp]
  · intro hm
    simp only [prove_mpack_ext, hm]

/-- Witness for the amended C2: concrete failing backends for the
positional and the structured entry points. -/
theorem prove_panics_on_backend_error_witness :
    prove (fun _ => Except.error ProveError.proofError)
      (some []) (some []) (some []) (some []) (some []) (some []) (some []) ⟨0, []⟩
      = .panic ∧
    prove_mpack_ext (fun _ => Except.error MpackError.schemaMismatch) (some []) ⟨0, []⟩
      = .panic :=
  ⟨(prove_panics_on_backend_error (fun _ => Except.error ProveError.proofError)
      (fun _ => Except.error MpackError.schemaMismatch) (some []) (some []) (some [])
      (some []) (some []) (some []) (some []) ⟨[], [], [], [], 0, 0⟩ [] ⟨0, []⟩
      ProveError.proofError MpackError.schemaMismatch).1 rfl rfl,
   (prove_panics_on_backend_error (fun _ => Except.error ProveError.proofError)
      (fun _ => Except.error MpackError.schemaMismatch) (some []) (some []) (some [])
      (some []) (some []) (some []) (some []) ⟨[], [], [], [], 0, 0⟩ [] ⟨0, []⟩
      ProveError.proofError MpackError.schemaMismatch).2 rfl⟩

/-- C7 counterexample: with one leaf hash but zero path indices (counts
disagree) the positional prove call terminates with a panic — the
orchestrator's `InvalidArgument` is `.unwrap()`ed away — instead of failing
with `InvalidArgument`. -/
theorem counts_disagree_panic_cex :
    prove (fun _ => Except.ok ([(1 : Byte)], [(1 : Byte)]))
      (some []) (some []) (some (toLeBytes 0)) (some []) (some []) (some []) (some [])
      ⟨0, []⟩ = FfiOutcome.panic := rfl

/-- C7 as amended: the (spec-modelled) orchestrator `StorageProofs::prove`
does validate the count-agreement invariant before the Proving Backend is
invoked and fails with `InvalidArgument` whenever the leaf-hash, path-index
and chunk counts disagree; but the positional FFI entry point `.unwrap()`s
that error, so the call panics rather than returning `InvalidArgument`. -/
theorem counts_validated_error_unwrapped
    (backend : DecodedArgs → Except ProveError (List Byte × List Byte))
    (chunks siblings hashes : Option (List Byte)) (path : Option (List Int))
    (pubkey root salt : Option (List Byte)) (args : DecodedArgs) (s : AllocState)
    (hdec : decodePositional chunks siblings hashes path pubkey root salt = .ok args)
    (hcount : countsAgree args = false) :
    storageProofsProve backend args = .error .invalidArgument ∧
    prove backend chunks siblings hashes path pubkey root salt s = .panic := by
  have hsp : storageProofsProve backend args = .error .invalidArgument := by
    simp [storageProofsProve, hcount]
  refine ⟨hsp, ?_⟩
  simp only [prove, hdec, hsp]

/-- Witness for the amended C7: one leaf hash, empty path. -/
theorem counts_validated_error_unwrapped_witness :
    storageProofsProve (fun _ => Except.ok ([], [])) ⟨[], [], [0], [], 0, 0⟩
      = Except.error ProveError.invalidArgument ∧
    prove (fun _ => Except.ok ([], [])) (some []) (some []) (some (toLeBytes 0))
      (some []) (some []) (some []) (some []) ⟨0, []⟩ = .panic :=
  counts_validated_error_unwrapped (fun _ => Except.ok ([], [])) (some []) (some [])
    (some (toLeBytes 0)) (some []) (some []) (some []) (some [])
    ⟨[], [], [0], [], 0, 0⟩ ⟨0, []⟩ rfl rfl

/-- C9: the outcome of the positional prove entry point does not depend on
the contents of the 32-byte pubkey buffer: the decoded `_pubkey` is
discarded and never passed to the backend, so two calls differing only in
the pubkey bytes produce identical outcomes. -/
theorem prove_ignores_pubkey
    (backend : DecodedArgs → Except ProveError (List Byte × List Byte))
    (cb sb hb : List Byte) (pth : List Int) (pk1 pk2 rb stb : List Byte)
    (s : AllocState) (h1 : pk1.length = 32) (h2 : pk2.length = 32) :
    prove backend (some cb) (some sb) (some hb) (some pth) (some pk1)
      (some rb) (some stb) s =
    prove backend (some cb) (some sb) (some hb) (some pth) (some pk2)
      (some rb) (some stb) s := by
  have e1 := tryFromLeSlice_short pk1 (by omega)
  have e2 := tryFromLeSlice_short pk2 (by omega)
  have hd : decodePositional (some cb) (some sb) (some hb) (some pth) (some pk1)
      (some rb) (some stb) =
      decodePositional (some cb) (some sb) (some hb) (some pth) (some pk2)
      (some rb) (some stb) := by
    simp only [decodePositional, derefBuf, FfiOutcome.bind, decodeVec_eq, unwrapOr, e1, e2]
  unfold prove
  rw [hd]

/-- Witness for C9: an all-zeros and an all-`0xFF` 32-byte pubkey give the
same outcome. -/
theorem prove_ignores_pubkey_witness :
    prove (fun _ => Except.ok ([], [])) (some []) (some []) (some []) (some [])
      (some (List.replicate 32 (0 : Byte))) (some []) (some []) ⟨0, []⟩ =
    prove (fun _ => Except.ok ([], [])) (some []) (some []) (some []) (some [])
      (some (List.replicate 32 (255 : Byte))) (some []) (some []) ⟨0, []⟩ :=
  prove_ignores_pubkey (fun _ => Except.ok ([], [])) [] [] [] []
    (List.replicate 32 (0 : Byte)) (List.replicate 32 (255 : Byte)) [] []
    ⟨0, []⟩ (by simp) (by simp)

end CodexFfi
